import Mathlib

/-!
Verification of the row-to-object mapping engine of weisd/kratos-sqlx
(`sqlx.go`, `stmt.go`, and the scan engine file) against its design
specification.

The scan engine (`scanAll`, `isScannable`, `structOnlyError`, `baseType`,
`fieldsByTraversal`, `missingFields`, `mapper`) is embedded shallowly:

* Go's `reflect.Type` for the types the engine inspects becomes `GoType`;
  the dynamic interface check `reflect.PtrTo(t).Implements(_scannerInterface)`
  becomes the `scan` flag carried by a type.
* Go values built by the engine become `GoVal` trees; `database/sql` driver
  values are the opaque domain `Val`.
* The `rowsi` cursor interface becomes the `Cursor` record: the result of
  `Columns`, the outcome of each `Next`/`Scan` round (a decode error or the
  row's column values), the final `Err`, the `unsafe` flag read through
  `isUnsafe`, and the `Mapper` carried when the dynamic type is `*Rows`.
  Every cursor method call is recorded in a `trace` so that statements about
  "no row was read" are about the code's interaction with the cursor.
* The destination `interface{}` becomes its dynamic type (`GoType`), a
  nil-pointer flag, and the current contents of the slice it points to;
  `scanAll` returns the error, the final contents and the cursor trace.

The `reflectx` package is a dependency of this repository whose code is not
in the repository's files; its operations used by the engine
(`NewMapperFunc`/`TypeMap`/`TraversalsByName`/`FieldByIndexes`/`Deref`) are
modelled from the specification's words (sections 4.1, 4.2 and the Traversal
Path data model) and are marked `Modelled from the spec:` below.
-/

namespace Sqlx

/-- Opaque domain of driver-level column values handed over by a cursor. -/
abbrev Val := Int

/-- The `reflect.Kind`s the scan engine distinguishes. -/
inductive Kind where
  | kstruct
  | kptr
  | kslice
  | kint
  | kstring
  | kbytes
  | kother
  deriving DecidableEq, Repr

mutual
/-- A Go type as the scan engine sees it through `reflect`.  The `scan`
flag of a constructor records whether a pointer to the type implements
`sql.Scanner` (the dynamic check `reflect.PtrTo(t).Implements(...)`);
pointer types themselves are never given the capability, which the engine
never queries on them. -/
inductive GoType where
  | prim (k : Kind) (scan : Bool)
  | strukt (sname : String) (scan : Bool) (fields : GoFields)
  | ptr (elem : GoType)
  | slice (scan : Bool) (elem : GoType)

/-- The declared field list of a struct type, in declaration order: field
name, optional `db` tag, exported flag, embedded flag, field type. -/
inductive GoFields where
  | nil
  | cons (fname : String) (tag : Option String) (exported : Bool)
      (embedded : Bool) (ftyp : GoType) (rest : GoFields)
end

/-- `t.Kind()`. -/
def GoType.kind : GoType → Kind
  | .prim k _ => k
  | .strukt _ _ _ => Kind.kstruct
  | .ptr _ => Kind.kptr
  | .slice _ _ => Kind.kslice

/-- `reflect.PtrTo(t).Implements(_scannerInterface)`. -/
def GoType.ptrScan : GoType → Bool
  | .prim _ s => s
  | .strukt _ s _ => s
  | .ptr _ => false
  | .slice s _ => s

/-- `t.Name()` as the error messages use it (empty for non-struct models). -/
def GoType.sname : GoType → String
  | .strukt n _ _ => n
  | _ => ""

/-- Modelled from the spec: `reflectx.Deref`, removing one reference level
from a type (`Indirect` for `reflect.Type`). -/
def derefOnce : GoType → GoType
  | .ptr e => e
  | t => t

/-- All reference levels removed, used to state what a destination
dereferences to through any number of pointer levels. -/
def derefAll : GoType → GoType
  | .ptr e => derefAll e
  | t => t

/-- `t.Elem()` of a slice type. -/
def GoType.sliceElem : GoType → GoType
  | .slice _ e => e
  | t => t

/-- Canonical name of a declared field: the `db` tag when present,
otherwise the installed name normalizer applied to the declared name. -/
def canonKey (nm : String → String) (fname : String) (tag : Option String) :
    String :=
  match tag with
  | some t => t
  | none => nm fname

mutual
/-- Modelled from the spec: the Type Structure Map computation of
`reflectx` (section 4.2) — walk the declared fields in declaration order;
unexported fields and fields tagged ignore are excluded; an embedded
composite with no custom-scan capability is recursed into with its
sub-paths prefixed by the field's position; every other field gets a
one-element path at its own position keyed by its canonical name. -/
def typeMapFields (nm : String → String) : Nat → GoFields →
    List (String × List Nat)
  | _, .nil => []
  | i, .cons fname tag exported embedded ftyp rest =>
    (if exported = false ∨ tag = some "-" then []
     else if embedded then
       match typeMapEmbedded nm ftyp with
       | some sub => sub.map (fun e => (e.1, i :: e.2))
       | none => [(canonKey nm fname tag, [i])]
     else [(canonKey nm fname tag, [i])])
    ++ typeMapFields nm (i + 1) rest

/-- Modelled from the spec: the recursion step for an embedded field — a
composite (directly or behind one reference level) with no custom-scan
capability contributes its own entries. -/
def typeMapEmbedded (nm : String → String) : GoType →
    Option (List (String × List Nat))
  | .strukt _ false fs => some (typeMapFields nm 0 fs)
  | .ptr (.strukt _ false fs) => some (typeMapFields nm 0 fs)
  | _ => none
end

/-- Modelled from the spec: `resolve(type)` of the Type Structure Cache —
the map from canonical field name to traversal path for a type (empty for
a non-composite). -/
def typeMapGo (nm : String → String) : GoType → List (String × List Nat)
  | .strukt _ _ fs => typeMapFields nm 0 fs
  | _ => []

/-- Modelled from the spec: the lookup half of `traversalsByNames` — the
path recorded under a canonical name, first declared entry winning, with
the empty path as the no-matching-field sentinel. -/
def lookupPath (m : List (String × List Nat)) (name : String) : List Nat :=
  match m.find? (fun e => e.1 == name) with
  | some e => e.2
  | none => []

/-- Modelled from the spec: `Mapper.TraversalsByName` — one traversal path
per requested column name, aligned positionally, empty path for a name
with no matching field. -/
def traversalsByName (nm : String → String) (t : GoType)
    (names : List String) : List (List Nat) :=
  names.map (lookupPath (typeMapGo nm t))

/-- The index scan of `missingFields`: the position of the first empty
traversal, `none` when every traversal is non-empty.  The Go function
returns `(i, error)` for the first empty traversal and `(0, nil)`
otherwise; `some i` stands for the error case. -/
def missingIdx : Nat → List (List Nat) → Option Nat
  | _, [] => none
  | i, t :: rest => if t.isEmpty then some i else missingIdx (i + 1) rest

/-- `missingFields` of the scan engine. -/
def missingFields (ts : List (List Nat)) : Option Nat := missingIdx 0 ts

/-- `isScannable`: scannable when a pointer to the type implements
`sql.Scanner`, when the type is not a struct, or when its type map has no
entries — checked in that order. -/
def isScannable (gm : String → String) (t : GoType) : Bool :=
  if t.ptrScan = true then true
  else if t.kind ≠ Kind.kstruct then true
  else if (typeMapGo gm t).length = 0 then true
  else false

/-- The errors `scanAll` and its helpers produce.  External errors
surfaced verbatim from the cursor keep their message. -/
inductive ScanError where
  | notAPointer
  | nilPointer
  | wrongBaseKind (got : Kind)
  | structOnlyKind (got : Kind)
  | structOnlyScanner (name : String)
  | structOnlyNoFields (name : String)
  | shapeMismatch (kind : Kind) (cols : Nat)
  | missingField (col : String)
  | notAStruct
  | cursorErr (msg : String)
  | decodeErr (msg : String)
  deriving DecidableEq, Repr

/-- The specification's error taxonomy (section 7). -/
inductive ErrKind where
  | invalidDestination
  | structOnlyViolation
  | shapeKind
  | missingKind
  | cursorKind
  | decodeKind
  | otherKind
  deriving DecidableEq, Repr

/-- Which taxonomy kind each produced error belongs to. -/
def ScanError.toKind : ScanError → ErrKind
  | .notAPointer => ErrKind.invalidDestination
  | .nilPointer => ErrKind.invalidDestination
  | .wrongBaseKind _ => ErrKind.invalidDestination
  | .structOnlyKind _ => ErrKind.structOnlyViolation
  | .structOnlyScanner _ => ErrKind.structOnlyViolation
  | .structOnlyNoFields _ => ErrKind.structOnlyViolation
  | .shapeMismatch _ _ => ErrKind.shapeKind
  | .missingField _ => ErrKind.missingKind
  | .notAStruct => ErrKind.otherKind
  | .cursorErr _ => ErrKind.cursorKind
  | .decodeErr _ => ErrKind.decodeKind

/-- `structOnlyError`: the diagnostic for a scannable element when a
struct was demanded — not a struct at all, a struct implementing
`sql.Scanner`, or a struct with no exported fields, in that order. -/
def structOnlyError (t : GoType) : ScanError :=
  if t.kind ≠ Kind.kstruct then ScanError.structOnlyKind t.kind
  else if t.ptrScan = true then ScanError.structOnlyScanner t.sname
  else ScanError.structOnlyNoFields t.sname

/-- A Go value as the engine builds it: unset zero value, a scalar, a
struct with its field values in declaration order, or a pointer to a
value (the `isPtr` append case). -/
inductive GoVal where
  | undef
  | prim (v : Val)
  | strukt (fields : List GoVal)
  | gptr (v : GoVal)

/-- Modelled from the spec: writing a decoded value through the address
`reflectx.FieldByIndexes` reached by following a traversal path from a
freshly allocated instance.  Fields in the model are stored by value. -/
def setPath : GoVal → List Nat → Val → GoVal
  | _, [], val => GoVal.prim val
  | GoVal.strukt fs, i :: rest, val =>
      GoVal.strukt (fs.set i (setPath (fs.getD i GoVal.undef) rest val))
  | v, _ :: _, _ => v

mutual
/-- `reflect.New(t)` and `reflect.Indirect`: the zero value of a type. -/
def zeroVal : GoType → GoVal
  | .strukt _ _ fs => GoVal.strukt (zeroFields fs)
  | _ => GoVal.undef

/-- Zero values of a struct's fields, in declaration order. -/
def zeroFields : GoFields → List GoVal
  | .nil => []
  | .cons _ _ _ _ t rest => zeroVal t :: zeroFields rest
end

/-- One row decoded into a fresh composite instance: the combined effect
of `fieldsByTraversal` (binding a field address per non-empty traversal
and a discard slot per empty one) and the cursor's `Scan` writing the
row's values through those slots in column order.  A pair whose traversal
is empty is the discard slot: its value is dropped. -/
def buildPairs (base : GoType) (pairs : List (List Nat × Val)) : GoVal :=
  pairs.foldl
    (fun acc pv => if pv.1.isEmpty then acc else setPath acc pv.1 pv.2)
    (zeroVal base)

/-- The composite per-row result from the traversals and the row's column
values. -/
def scanRowVals (base : GoType) (fields : List (List Nat)) (vs : List Val) :
    GoVal :=
  buildPairs base (fields.zip vs)

/-- The scalar per-row result: `rows.Scan(vp.Interface())` decoding the
single column into a fresh instance. -/
def scalarDecode (base : GoType) (vs : List Val) : GoVal :=
  match vs with
  | v :: _ => GoVal.prim v
  | [] => zeroVal base

/-- `direct.Set(reflect.Append(direct, ...))`: by reference or by value,
per the destination's element shape. -/
def pack (byPtr : Bool) (v : GoVal) : GoVal :=
  if byPtr then GoVal.gptr v else v

/-- The cursor methods of the `rowsi` interface that `scanAll` may call. -/
inductive CursorOp where
  | columns
  | next
  | scan
  | err
  deriving DecidableEq, Repr

/-- The `rowsi` cursor together with the two dynamic facts `scanAll`
queries about its concrete type: `unsafeMode` is what `isUnsafe` reports,
and `rowsMapper` is the `Mapper` carried when the dynamic type is `*Rows`
(`none` for every other `rowsi`, making the engine fall back to the
global mapper). Each entry of `rows` is one `Next`/`Scan` round: the
row's column values, or the decode error `Scan` reports. -/
structure Cursor where
  columnsRes : Except String (List String)
  rows : List (Except String (List Val))
  finalErr : Option String
  unsafeMode : Bool
  rowsMapper : Option (String → String)

/-- What a `scanAll` call produces: the returned error (if any), the
final contents of the destination slice, and the trace of cursor method
calls it performed. -/
structure ScanResult where
  err : Option ScanError
  dest : List GoVal
  trace : List CursorOp

/-- The composite (`!scannable`) row loop of `scanAll`: `Next`, the
struct check of `fieldsByTraversal`, `Scan`, append; a decode error stops
the loop at once. -/
def compositeLoop (base : GoType) (byPtr : Bool) (fields : List (List Nat)) :
    List (Except String (List Val)) → List GoVal → List CursorOp →
    ScanResult
  | [], dest, tr => ⟨none, dest, tr ++ [CursorOp.next]⟩
  | r :: rest, dest, tr =>
    if base.kind ≠ Kind.kstruct then
      ⟨some ScanError.notAStruct, dest, tr ++ [CursorOp.next]⟩
    else
      match r with
      | .error e =>
          ⟨some (ScanError.decodeErr e), dest,
            tr ++ [CursorOp.next, CursorOp.scan]⟩
      | .ok vs =>
          compositeLoop base byPtr fields rest
            (dest ++ [pack byPtr (scanRowVals base fields vs)])
            (tr ++ [CursorOp.next, CursorOp.scan])

/-- The scalar (`scannable`) row loop of `scanAll`: `Next`, `Scan` into a
fresh instance, append; a decode error stops the loop at once. -/
def scalarLoop (base : GoType) (byPtr : Bool) :
    List (Except String (List Val)) → List GoVal → List CursorOp →
    ScanResult
  | [], dest, tr => ⟨none, dest, tr ++ [CursorOp.next]⟩
  | r :: rest, dest, tr =>
    match r with
    | .error e =>
        ⟨some (ScanError.decodeErr e), dest,
          tr ++ [CursorOp.next, CursorOp.scan]⟩
    | .ok vs =>
        scalarLoop base byPtr rest
          (dest ++ [pack byPtr (scalarDecode base vs)])
          (tr ++ [CursorOp.next, CursorOp.scan])

/-- The tail of `scanAll`: when the loop ended without error the engine
asks the cursor for its end-of-iteration error (`return rows.Err()`). -/
def finish (c : Cursor) (r : ScanResult) : ScanResult :=
  match r.err with
  | some _ => r
  | none =>
    match c.finalErr with
    | some e => ⟨some (ScanError.cursorErr e), r.dest, r.trace ++ [CursorOp.err]⟩
    | none => ⟨none, r.dest, r.trace ++ [CursorOp.err]⟩

/-- The phase of `scanAll` after the destination checks, for element base
type `base` stored by pointer or value per `byPtr`: the struct-only
check, the `Columns` call, the column-count check for a scalar-like base,
the traversal resolution with the strict missing-field check for a
composite base, and the row loop. -/
def scanBody (gm : String → String) (c : Cursor) (base : GoType)
    (byPtr : Bool) (init : List GoVal) (structOnly : Bool) : ScanResult :=
  if structOnly && isScannable gm base then
    ⟨some (structOnlyError base), init, []⟩
  else
    match c.columnsRes with
    | .error e => ⟨some (ScanError.cursorErr e), init, [CursorOp.columns]⟩
    | .ok cols =>
      if isScannable gm base && decide (cols.length > 1) then
        ⟨some (ScanError.shapeMismatch base.kind cols.length), init,
          [CursorOp.columns]⟩
      else if !isScannable gm base then
        if (missingFields (traversalsByName (c.rowsMapper.getD gm) base
              cols)).isSome && !c.unsafeMode then
          ⟨some (ScanError.missingField
              (cols.getD ((missingFields (traversalsByName
                (c.rowsMapper.getD gm) base cols)).getD 0) "")), init,
            [CursorOp.columns]⟩
        else
          finish c (compositeLoop base byPtr
            (traversalsByName (c.rowsMapper.getD gm) base cols) c.rows init
            [CursorOp.columns])
      else
        finish c (scalarLoop base byPtr c.rows init [CursorOp.columns])

/-- `scanAll(rows, dest, structOnly)`.  `gm` is the name normalizer the
process-wide `mapper()` would currently build with; `destTy` the dynamic
type of the destination argument, `destNil` whether it is a nil
reference, `init` the current contents of the slice it points to. -/
def scanAll (gm : String → String) (c : Cursor) (destTy : GoType)
    (destNil : Bool) (init : List GoVal) (structOnly : Bool) : ScanResult :=
  if destTy.kind ≠ Kind.kptr then ⟨some ScanError.notAPointer, init, []⟩
  else if destNil then ⟨some ScanError.nilPointer, init, []⟩
  else if (derefOnce destTy).kind ≠ Kind.kslice then
    ⟨some (ScanError.wrongBaseKind (derefOnce destTy).kind), init, []⟩
  else
    scanBody gm c (derefOnce ((derefOnce destTy).sliceElem))
      ((derefOnce destTy).sliceElem.kind == Kind.kptr) init structOnly

/-!  The process-wide mapper cache (`NameMapper`, `origMapper`, `mpr`,
`mapper()`).  Go compares the installed function against the recorded one
with `reflect.Value` equality, which for references to named functions is
identity of the function value; the model gives every installed function
value a numeric identity.  Identity `0` is the package default
`strings.ToLower` recorded in `origMapper` at initialization. -/

/-- The three package-level variables of the mapper cache: the identity of
the currently installed `NameMapper`, the identity recorded in
`origMapper`, and `mpr` as the identity of the normalizer the cached
mapper was built from (`none` while `mpr == nil`). -/
structure MapperCache where
  nameMapperId : Nat
  origMapperId : Nat
  cached : Option Nat
  deriving DecidableEq, Repr

/-- Package initialization: `NameMapper = strings.ToLower`,
`origMapper = reflect.ValueOf(NameMapper)`, `mpr = nil`. -/
def initMapperCache : MapperCache := ⟨0, 0, none⟩

/-- The user assignment `NameMapper = f`. -/
def setNameMapper (fid : Nat) (s : MapperCache) : MapperCache :=
  ⟨fid, s.origMapperId, s.cached⟩

/-- `mapper()`: build on first use; rebuild (and update `origMapper`) when
the installed function's identity differs from the recorded one; serve
the cached mapper otherwise.  Returns the identity of the normalizer the
returned mapper was built from, with the updated state. -/
def mapperCall (s : MapperCache) : Nat × MapperCache :=
  match s.cached with
  | none => (s.nameMapperId, ⟨s.nameMapperId, s.origMapperId, some s.nameMapperId⟩)
  | some m =>
    if s.origMapperId ≠ s.nameMapperId then
      (s.nameMapperId, ⟨s.nameMapperId, s.nameMapperId, some s.nameMapperId⟩)
    else (m, s)

/-!  The `Stmt` wrappers (`stmt.go`).  The wrapped statement's methods are
variadic; the wrappers call them as `s.Stmt.Exec(c, args)` — the caller's
argument list `args` passed as one variadic element, not spread with
`args...`.  A variadic callee receives a list of argument values; a Go
value is either a single value or a slice of values. -/

/-- A Go argument value: a single value or a slice value. -/
inductive GoArg where
  | val (v : Val)
  | slice (args : List GoArg)

/-- The argument list `Stmt.Exec` hands to the wrapped statement. -/
def stmtExecForward (args : List GoArg) : List GoArg := [GoArg.slice args]

/-- The argument list `Stmt.Query` hands to the wrapped statement. -/
def stmtQueryForward (args : List GoArg) : List GoArg := [GoArg.slice args]

/-- The argument list `Stmt.QueryRow` hands to the wrapped statement. -/
def stmtQueryRowForward (args : List GoArg) : List GoArg := [GoArg.slice args]

/-!  Helper lemmas about the row loops, the finishing step and the
per-row build. -/

/-- Cursor trace of a loop that drains `n` rows and sees `Next` fail. -/
def okTrace : Nat → List CursorOp
  | 0 => [CursorOp.next]
  | n + 1 => CursorOp.next :: CursorOp.scan :: okTrace n

/-- Cursor trace of a loop that decodes `n` rows and stops on the decode
error of row `n + 1`. -/
def stopTrace : Nat → List CursorOp
  | 0 => [CursorOp.next, CursorOp.scan]
  | n + 1 => CursorOp.next :: CursorOp.scan :: stopTrace n

theorem finish_dest (c : Cursor) (r : ScanResult) : (finish c r).dest = r.dest := by
  unfold finish
  cases hr : r.err with
  | some e => rfl
  | none => cases c.finalErr <;> rfl

theorem finish_err_some (c : Cursor) (r : ScanResult) (e : ScanError)
    (h : r.err = some e) : (finish c r).err = some e := by
  unfold finish
  rw [h]
  exact h

theorem finish_err_kind (c : Cursor) (r : ScanResult) (e : ScanError)
    (h : (finish c r).err = some e) :
    r.err = some e ∨ e.toKind = ErrKind.cursorKind := by
  cases hr : r.err with
  | some e0 =>
      simp only [finish, hr, Option.some.injEq] at h
      subst h
      exact Or.inl rfl
  | none =>
      cases hf : c.finalErr with
      | some msg =>
          simp only [finish, hr, hf, Option.some.injEq] at h
          subst h
          exact Or.inr rfl
      | none =>
          simp only [finish, hr, hf] at h
          exact Option.noConfusion h

theorem scalarLoop_ok (base : GoType) (byPtr : Bool) :
    ∀ (rvs : List (List Val)) (dest : List GoVal) (tr : List CursorOp),
      scalarLoop base byPtr (rvs.map Except.ok) dest tr =
        ⟨none, dest ++ rvs.map (fun vs => pack byPtr (scalarDecode base vs)),
          tr ++ okTrace rvs.length⟩ := by
  intro rvs
  induction rvs with
  | nil => intro dest tr; simp [scalarLoop, okTrace]
  | cons vs rest ih =>
      intro dest tr
      simp only [List.map_cons, scalarLoop]
      rw [ih]
      simp [okTrace, List.append_assoc]

theorem scalarLoop_stop (base : GoType) (byPtr : Bool) (emsg : String)
    (rest : List (Except String (List Val))) :
    ∀ (rvs : List (List Val)) (dest : List GoVal) (tr : List CursorOp),
      scalarLoop base byPtr (rvs.map Except.ok ++ Except.error emsg :: rest)
          dest tr =
        ⟨some (ScanError.decodeErr emsg),
          dest ++ rvs.map (fun vs => pack byPtr (scalarDecode base vs)),
          tr ++ stopTrace rvs.length⟩ := by
  intro rvs
  induction rvs with
  | nil => intro dest tr; simp [scalarLoop, stopTrace]
  | cons vs rest2 ih =>
      intro dest tr
      simp only [List.map_cons, List.cons_append, scalarLoop, List.append_eq]
      rw [ih]
      simp [stopTrace, List.append_assoc]

theorem compositeLoop_ok (base : GoType) (byPtr : Bool)
    (fields : List (List Nat)) (hb : base.kind = Kind.kstruct) :
    ∀ (rvs : List (List Val)) (dest : List GoVal) (tr : List CursorOp),
      compositeLoop base byPtr fields (rvs.map Except.ok) dest tr =
        ⟨none, dest ++ rvs.map (fun vs => pack byPtr (scanRowVals base fields vs)),
          tr ++ okTrace rvs.length⟩ := by
  intro rvs
  induction rvs with
  | nil => intro dest tr; simp [compositeLoop, okTrace]
  | cons vs rest ih =>
      intro dest tr
      simp only [List.map_cons, compositeLoop, hb]
      rw [if_neg (by simp [hb])]
      rw [ih]
      simp [okTrace, List.append_assoc]

theorem compositeLoop_stop (base : GoType) (byPtr : Bool)
    (fields : List (List Nat)) (hb : base.kind = Kind.kstruct) (emsg : String)
    (rest : List (Except String (List Val))) :
    ∀ (rvs : List (List Val)) (dest : List GoVal) (tr : List CursorOp),
      compositeLoop base byPtr fields
          (rvs.map Except.ok ++ Except.error emsg :: rest) dest tr =
        ⟨some (ScanError.decodeErr emsg),
          dest ++ rvs.map (fun vs => pack byPtr (scanRowVals base fields vs)),
          tr ++ stopTrace rvs.length⟩ := by
  intro rvs
  induction rvs with
  | nil =>
      intro dest tr
      simp only [List.map_nil, List.nil_append, compositeLoop]
      rw [if_neg (by simp [hb])]
      simp [stopTrace]
  | cons vs rest2 ih =>
      intro dest tr
      simp only [List.map_cons, List.cons_append, compositeLoop, List.append_eq]
      rw [if_neg (by simp [hb])]
      rw [ih]
      simp [stopTrace, List.append_assoc]

theorem scalarLoop_err_kind (base : GoType) (byPtr : Bool) :
    ∀ (rows : List (Except String (List Val))) (dest : List GoVal)
      (tr : List CursorOp) (e : ScanError),
      (scalarLoop base byPtr rows dest tr).err = some e →
      e.toKind = ErrKind.decodeKind := by
  intro rows
  induction rows with
  | nil => intro dest tr e h; simp [scalarLoop] at h
  | cons r rest ih =>
      intro dest tr e h
      cases r with
      | error msg =>
          simp only [scalarLoop] at h
          simp only [Option.some.injEq] at h
          subst h
          rfl
      | ok vs => exact ih _ _ _ (by simpa [scalarLoop] using h)

theorem compositeLoop_err_kind (base : GoType) (byPtr : Bool)
    (fields : List (List Nat)) :
    ∀ (rows : List (Except String (List Val))) (dest : List GoVal)
      (tr : List CursorOp) (e : ScanError),
      (compositeLoop base byPtr fields rows dest tr).err = some e →
      e.toKind = ErrKind.decodeKind ∨ e.toKind = ErrKind.otherKind := by
  intro rows
  induction rows with
  | nil => intro dest tr e h; simp [compositeLoop] at h
  | cons r rest ih =>
      intro dest tr e h
      by_cases hb : base.kind = Kind.kstruct
      · simp only [compositeLoop] at h
        rw [if_neg (by simp [hb])] at h
        cases r with
        | error msg =>
            simp only [Option.some.injEq] at h
            subst h
            exact Or.inl rfl
        | ok vs => exact ih _ _ _ h
      · simp only [compositeLoop] at h
        rw [if_pos (by simpa using hb)] at h
        simp only [Option.some.injEq] at h
        subst h
        exact Or.inr rfl

theorem isScannable_false_struct (gm : String → String) (t : GoType)
    (h : isScannable gm t = false) : t.kind = Kind.kstruct := by
  by_contra hk
  unfold isScannable at h
  by_cases hp : t.ptrScan = true
  · rw [if_pos hp] at h
    exact Bool.noConfusion h
  · rw [if_neg hp, if_pos hk] at h
    exact Bool.noConfusion h

theorem foldl_skip_filter {α β : Type _} (step : β → α → β) (keep : α → Bool)
    (hstep : ∀ b a, keep a = false → step b a = b) :
    ∀ (l : List α) (b : β), l.foldl step b = (l.filter keep).foldl step b := by
  intro l
  induction l with
  | nil => intro b; rfl
  | cons a t ih =>
      intro b
      by_cases hk : keep a = true
      · simp only [List.foldl, List.filter, hk]
        exact ih (step b a)
      · have hk' : keep a = false := by simpa using hk
        simp only [List.foldl, List.filter, hk', hstep b a hk']
        exact ih b

theorem buildPairs_filter (base : GoType) (pairs : List (List Nat × Val)) :
    buildPairs base pairs =
      buildPairs base (pairs.filter (fun pv => !pv.1.isEmpty)) := by
  unfold buildPairs
  refine foldl_skip_filter _ _ ?_ pairs (zeroVal base)
  intro b a ha
  have : a.1.isEmpty = true := by simpa using ha
  simp [this]

theorem zip_set_unmatched :
    ∀ (fields : List (List Nat)) (vs : List Val) (i : Nat) (w : Val),
      fields.getD i [] = [] →
      ((fields.zip (vs.set i w)).filter (fun pv => !pv.1.isEmpty)) =
        ((fields.zip vs).filter (fun pv => !pv.1.isEmpty)) := by
  intro fields
  induction fields with
  | nil => intro vs i w _; simp
  | cons f ft ih =>
      intro vs i w h
      cases vs with
      | nil => simp
      | cons v vt =>
          cases i with
          | zero =>
              have hf : f = [] := by simpa using h
              subst hf
              simp [List.set_cons_zero, List.zip_cons_cons, List.filter_cons]
          | succ n =>
              have h' : ft.getD n [] = [] := by simpa using h
              simp only [List.set_cons_succ, List.zip_cons_cons,
                List.filter_cons]
              rw [ih vt n w h']

/-- Reduction of `scanAll` at a well-shaped destination: a non-nil
reference to a slice of `elemTy`.  The three destination checks pass and
the engine proceeds with `base = derefOnce elemTy`. -/
theorem scanAll_ptr_slice (gm : String → String) (c : Cursor)
    (sl : Bool) (elemTy : GoType) (init : List GoVal) (structOnly : Bool) :
    scanAll gm c (GoType.ptr (GoType.slice sl elemTy)) false init
        structOnly =
      (if structOnly && isScannable gm (derefOnce elemTy) then
        ⟨some (structOnlyError (derefOnce elemTy)), init, []⟩
      else
        match c.columnsRes with
        | .error e => ⟨some (ScanError.cursorErr e), init, [CursorOp.columns]⟩
        | .ok cols =>
          if isScannable gm (derefOnce elemTy) && decide (cols.length > 1) then
            ⟨some (ScanError.shapeMismatch (derefOnce elemTy).kind
                cols.length), init, [CursorOp.columns]⟩
          else if !(isScannable gm (derefOnce elemTy)) then
            if (missingFields (traversalsByName (c.rowsMapper.getD gm)
                  (derefOnce elemTy) cols)).isSome && !c.unsafeMode then
              ⟨some (ScanError.missingField
                  (cols.getD ((missingFields (traversalsByName
                    (c.rowsMapper.getD gm) (derefOnce elemTy) cols)).getD 0)
                    "")), init, [CursorOp.columns]⟩
            else
              finish c (compositeLoop (derefOnce elemTy)
                (elemTy.kind == Kind.kptr)
                (traversalsByName (c.rowsMapper.getD gm) (derefOnce elemTy)
                  cols)
                c.rows init [CursorOp.columns])
          else
            finish c (scalarLoop (derefOnce elemTy) (elemTy.kind == Kind.kptr)
              c.rows init [CursorOp.columns])) := rfl

/-- Reduction of `scanAll` at a well-shaped destination and a cursor
whose column fetch succeeded: the three destination checks pass, the
`Columns` call returns `cols`, and the engine proceeds. -/
theorem scanAll_ptr_slice_ok (gm : String → String) (cols : List String)
    (rows : List (Except String (List Val))) (fe : Option String)
    (u : Bool) (rm : Option (String → String)) (sl : Bool)
    (elemTy : GoType) (init : List GoVal) (structOnly : Bool) :
    scanAll gm (Cursor.mk (Except.ok cols) rows fe u rm)
        (GoType.ptr (GoType.slice sl elemTy)) false init structOnly =
      (if structOnly && isScannable gm (derefOnce elemTy) then
        ⟨some (structOnlyError (derefOnce elemTy)), init, []⟩
      else if isScannable gm (derefOnce elemTy) && decide (cols.length > 1)
          then
        ⟨some (ScanError.shapeMismatch (derefOnce elemTy).kind cols.length),
          init, [CursorOp.columns]⟩
      else if !(isScannable gm (derefOnce elemTy)) then
        (if (missingFields (traversalsByName (rm.getD gm) (derefOnce elemTy)
              cols)).isSome && !u then
          ⟨some (ScanError.missingField
              (cols.getD ((missingFields (traversalsByName (rm.getD gm)
                (derefOnce elemTy) cols)).getD 0) "")), init,
            [CursorOp.columns]⟩
        else
          finish (Cursor.mk (Except.ok cols) rows fe u rm)
            (compositeLoop (derefOnce elemTy) (elemTy.kind == Kind.kptr)
              (traversalsByName (rm.getD gm) (derefOnce elemTy) cols)
              rows init [CursorOp.columns]))
      else
        finish (Cursor.mk (Except.ok cols) rows fe u rm)
          (scalarLoop (derefOnce elemTy) (elemTy.kind == Kind.kptr) rows
            init [CursorOp.columns])) := rfl

/-!  Concrete fixtures used by witnesses and counterexamples. -/

/-- A struct type with one exported int field `ID` tagged `db:"id"`, so
its canonical name is `id` under every normalizer. -/
def itemType : GoType :=
  GoType.strukt "Item" false
    (GoFields.cons "ID" (some "id") true false (GoType.prim Kind.kint false)
      GoFields.nil)

/-- A bare int element type. -/
def intType : GoType := GoType.prim Kind.kint false

/-!  The claims. -/

/-- C2: `isScannable` declares a type scalar-like exactly when a pointer
to it implements `sql.Scanner`, or it is not a struct, or its resolved
type-structure map has zero entries — and a struct type implementing the
capability is always scalar-like (never field-mapped), the capability
check coming first. -/
theorem isScannable_rules :
    ∀ (gm : String → String) (t : GoType),
      (isScannable gm t = true ↔
        (t.ptrScan = true ∨ t.kind ≠ Kind.kstruct ∨
          (typeMapGo gm t).length = 0)) ∧
      (∀ (n : String) (fs : GoFields),
        isScannable gm (GoType.strukt n true fs) = true) := by
  intro gm t
  refine ⟨?_, ?_⟩
  · unfold isScannable
    by_cases h1 : t.ptrScan = true
    · simp [h1]
    · by_cases h2 : t.kind = Kind.kstruct
      · by_cases h3 : (typeMapGo gm t).length = 0
        · simp [h1, h2, h3]
        · simp [h1, h2, h3]
      · simp [h1, h2]
  · intro n fs
    unfold isScannable
    rw [if_pos]
    rfl

/-- C9: each of `Stmt.Exec`, `Stmt.Query` and `Stmt.QueryRow` hands the
wrapped statement its variadic arguments as one single slice value, never
as the arguments spread individually. -/
theorem stmt_forwards_args_as_one_slice :
    ∀ (args : List GoArg),
      stmtExecForward args = [GoArg.slice args] ∧
      stmtQueryForward args = [GoArg.slice args] ∧
      stmtQueryRowForward args = [GoArg.slice args] ∧
      (stmtExecForward args).length = 1 ∧
      stmtExecForward args ≠ args ∧
      stmtQueryForward args ≠ args ∧
      stmtQueryRowForward args ≠ args := by
  have hne : ∀ (l : List GoArg) (a : GoArg), a ∈ l → GoArg.slice l ≠ a := by
    intro l a hm he
    have hs : sizeOf a < sizeOf l := List.sizeOf_lt_of_mem hm
    have h2 : sizeOf (GoArg.slice l) = 1 + sizeOf l := by simp
    rw [he] at h2
    omega
  have hne1 : ∀ (args : List GoArg), [GoArg.slice args] ≠ args := by
    intro args
    cases args with
    | nil => simp
    | cons a t =>
        intro he
        obtain ⟨hh, ht⟩ := List.cons.inj he
        subst ht
        exact hne [a] a (by simp) hh
  intro args
  exact ⟨rfl, rfl, rfl, rfl, hne1 args, hne1 args, hne1 args⟩

/-- C8: evaluation of the mapper cache at the failing replacement
sequence.  Install a custom normalizer (identity 1) before the first
`mapper()` call, call `mapper()`, restore the original default normalizer
(identity 0), call `mapper()` again: the second call serves the mapper
still built from the replaced normalizer 1, because the `mpr == nil`
branch of `mapper()` never updates `origMapper`, so the identity
comparison fails to detect this replacement.  The claim (and the spec's
"stale maps are discarded rather than served") requires the second call
to return a mapper built from the newly installed normalizer 0. -/
theorem mapper_serves_stale_after_restore :
    (mapperCall (setNameMapper 0
        (mapperCall (setNameMapper 1 initMapperCache)).2)).1 = 1 ∧
    (setNameMapper 0
        (mapperCall (setNameMapper 1 initMapperCache)).2).nameMapperId = 0 ∧
    (mapperCall (setNameMapper 0
        (mapperCall (setNameMapper 1 initMapperCache)).2)).1 ≠
      (setNameMapper 0
        (mapperCall (setNameMapper 1 initMapperCache)).2).nameMapperId := by
  refine ⟨rfl, rfl, ?_⟩
  decide

/-- C6: with `structOnly` true and a scalar-like element type, `scanAll`
fails with the struct-only diagnostic before performing any cursor
operation and without touching the destination; the error kind is the
struct-only violation, and the message distinguishes a non-struct
element, a struct implementing `sql.Scanner`, and a struct with no
mapped fields, in that order. -/
theorem scanAll_struct_only_violation :
    ∀ (gm : String → String) (c : Cursor) (elemTy : GoType)
      (init : List GoVal),
      isScannable gm (derefOnce elemTy) = true →
      (scanAll gm c (GoType.ptr (GoType.slice false elemTy)) false init true =
        ⟨some (structOnlyError (derefOnce elemTy)), init, []⟩) ∧
      (structOnlyError (derefOnce elemTy)).toKind =
        ErrKind.structOnlyViolation ∧
      ((derefOnce elemTy).kind ≠ Kind.kstruct →
        structOnlyError (derefOnce elemTy) =
          ScanError.structOnlyKind (derefOnce elemTy).kind) ∧
      ((derefOnce elemTy).kind = Kind.kstruct →
        (derefOnce elemTy).ptrScan = true →
        structOnlyError (derefOnce elemTy) =
          ScanError.structOnlyScanner (derefOnce elemTy).sname) ∧
      ((derefOnce elemTy).kind = Kind.kstruct →
        (derefOnce elemTy).ptrScan = false →
        structOnlyError (derefOnce elemTy) =
          ScanError.structOnlyNoFields (derefOnce elemTy).sname) := by
  intro gm c elemTy init hscan
  have hmain :
      scanAll gm c (GoType.ptr (GoType.slice false elemTy)) false init true =
        ⟨some (structOnlyError (derefOnce elemTy)), init, []⟩ := by
    rw [scanAll_ptr_slice]
    simp [hscan]
  have hkind :
      (structOnlyError (derefOnce elemTy)).toKind =
        ErrKind.structOnlyViolation := by
    unfold structOnlyError
    by_cases h1 : (derefOnce elemTy).kind = Kind.kstruct
    · by_cases h2 : (derefOnce elemTy).ptrScan = true
      · simp [h1, h2, ScanError.toKind]
      · simp [h1, h2, ScanError.toKind]
    · simp [h1, ScanError.toKind]
  refine ⟨hmain, hkind, ?_, ?_, ?_⟩
  · intro h1
    unfold structOnlyError
    rw [if_pos h1]
  · intro h1 h2
    unfold structOnlyError
    rw [if_neg (by simp [h1]), if_pos h2]
  · intro h1 h2
    unfold structOnlyError
    rw [if_neg (by simp [h1]), if_neg (by simp [h2])]

/-- C6 witness: a bare int element with `structOnly` true fails with the
non-struct diagnostic, no cursor call, destination untouched. -/
theorem scanAll_struct_only_violation_witness :
    scanAll String.toLower
        ⟨Except.ok ["a"], [], none, false, none⟩
        (GoType.ptr (GoType.slice false intType)) false [] true =
      ⟨some (structOnlyError (derefOnce intType)), [], []⟩ :=
  (scanAll_struct_only_violation String.toLower
    ⟨Except.ok ["a"], [], none, false, none⟩ intType [] (by decide)).1

/-- C5: `scanAll` fails with an InvalidDestination-kind error whenever
the destination is not a pointer, is a nil pointer, or does not
dereference (through any number of pointer levels) to a slice type. -/
theorem scanAll_invalid_destination :
    ∀ (gm : String → String) (c : Cursor) (destTy : GoType) (destNil : Bool)
      (init : List GoVal) (structOnly : Bool),
      (destTy.kind ≠ Kind.kptr ∨ destNil = true ∨
        (derefAll destTy).kind ≠ Kind.kslice) →
      ∃ e, (scanAll gm c destTy destNil init structOnly).err = some e ∧
        e.toKind = ErrKind.invalidDestination := by
  intro gm c destTy destNil init so h
  by_cases h1 : destTy.kind = Kind.kptr
  · by_cases h2 : destNil = true
    · refine ⟨ScanError.nilPointer, ?_, rfl⟩
      unfold scanAll
      rw [if_neg (not_not_intro h1), if_pos h2]
    · have h3 : (derefAll destTy).kind ≠ Kind.kslice := by
        rcases h with h | h | h
        · exact absurd h1 h
        · exact absurd h h2
        · exact h
      cases destTy with
      | prim k s =>
          have hk : k = Kind.kptr := by simpa [GoType.kind] using h1
          subst hk
          refine ⟨ScanError.wrongBaseKind
            (derefOnce (GoType.prim Kind.kptr s)).kind, ?_, rfl⟩
          unfold scanAll
          rw [if_neg (not_not_intro h1), if_neg h2,
            if_pos (by simp [derefOnce, GoType.kind])]
      | strukt n s fs => simp [GoType.kind] at h1
      | slice s e0 => simp [GoType.kind] at h1
      | ptr e0 =>
          have he : (derefOnce (GoType.ptr e0)).kind ≠ Kind.kslice := by
            intro hk
            apply h3
            cases e0 with
            | prim k s => simpa [derefAll, derefOnce, GoType.kind] using hk
            | strukt n s fs => simp [derefOnce, GoType.kind] at hk
            | ptr e1 => simp [derefOnce, GoType.kind] at hk
            | slice s e1 => simp [derefAll, GoType.kind]
          refine ⟨ScanError.wrongBaseKind (derefOnce (GoType.ptr e0)).kind,
            ?_, rfl⟩
          unfold scanAll
          rw [if_neg (not_not_intro h1), if_neg h2, if_pos he]
  · refine ⟨ScanError.notAPointer, ?_, rfl⟩
    unfold scanAll
    rw [if_pos h1]

/-- C5 witness: a bare int destination (not a pointer) is rejected with
an InvalidDestination-kind error. -/
theorem scanAll_invalid_destination_witness :
    ∃ e, (scanAll String.toLower ⟨Except.ok ["a"], [], none, false, none⟩
        intType false [] false).err = some e ∧
      e.toKind = ErrKind.invalidDestination :=
  scanAll_invalid_destination String.toLower
    ⟨Except.ok ["a"], [], none, false, none⟩ intType false [] false
    (Or.inl (by decide))

/-- C3 counterexample: a scalar (int) slice destination against a cursor
reporting zero columns and zero rows.  `scanAll` returns no error, while
the claim demands a ShapeMismatch failure for every column count other
than one; the code only rejects column counts above one. -/
theorem scanAll_scalar_zero_columns_cex :
    (scanAll String.toLower ⟨Except.ok [], [], none, false, none⟩
        (GoType.ptr (GoType.slice false intType)) false [] false).err =
      none ∧
    (scanAll String.toLower ⟨Except.ok [], [], none, false, none⟩
        (GoType.ptr (GoType.slice false intType)) false [] false).dest =
      ([] : List GoVal) :=
  ⟨rfl, rfl⟩

/-- C3 (amended): for a scalar-like element type, `scanAll` rejects a
column count above one with a ShapeMismatch naming the actual count (a
zero column count is not rejected), and with exactly one column it
appends one decoded value per row, in cursor order. -/
theorem scanAll_scalar_shape :
    ∀ (gm : String → String) (elemTy : GoType) (init : List GoVal)
      (u : Bool) (rm : Option (String → String)),
      isScannable gm (derefOnce elemTy) = true →
      (∀ (cols : List String) (rows : List (Except String (List Val)))
        (fe : Option String), cols.length > 1 →
        scanAll gm ⟨Except.ok cols, rows, fe, u, rm⟩
            (GoType.ptr (GoType.slice false elemTy)) false init false =
          ⟨some (ScanError.shapeMismatch (derefOnce elemTy).kind
            cols.length), init, [CursorOp.columns]⟩) ∧
      (∀ (c0 : String) (rvs : List (List Val)),
        (scanAll gm ⟨Except.ok [c0], rvs.map Except.ok, none, u, rm⟩
            (GoType.ptr (GoType.slice false elemTy)) false init false).err =
          none ∧
        (scanAll gm ⟨Except.ok [c0], rvs.map Except.ok, none, u, rm⟩
            (GoType.ptr (GoType.slice false elemTy)) false init
            false).dest =
          init ++ rvs.map (fun vs =>
            pack (elemTy.kind == Kind.kptr)
              (scalarDecode (derefOnce elemTy) vs))) := by
  intro gm elemTy init u rm hscan
  constructor
  · intro cols rows fe hlen
    rw [scanAll_ptr_slice_ok]
    rw [if_neg (by simp), if_pos (by simp [hscan, hlen])]
  · intro c0 rvs
    rw [scanAll_ptr_slice_ok]
    rw [if_neg (by simp), if_neg (by simp), if_neg (by simp [hscan]),
      scalarLoop_ok]
    exact ⟨rfl, rfl⟩

/-- C3 witness: an int slice against a two-column cursor fails with
ShapeMismatch naming the count 2; against a one-column cursor with rows
5 and 7 it appends the two decoded values in order. -/
theorem scanAll_scalar_shape_witness :
    scanAll String.toLower ⟨Except.ok ["a", "b"], [], none, false, none⟩
        (GoType.ptr (GoType.slice false intType)) false [] false =
      ⟨some (ScanError.shapeMismatch Kind.kint 2), [], [CursorOp.columns]⟩ ∧
    (scanAll String.toLower
        ⟨Except.ok ["a"], [Except.ok [5], Except.ok [7]], none, false, none⟩
        (GoType.ptr (GoType.slice false intType)) false [] false).dest =
      [GoVal.prim 5, GoVal.prim 7] :=
  ⟨(scanAll_scalar_shape String.toLower intType [] false none
      (by decide)).1 ["a", "b"] [] none (by decide),
    ((scanAll_scalar_shape String.toLower intType [] false none
      (by decide)).2 "a" [[5], [7]]).2⟩

/-- C7 counterexample: a composite element whose only canonical name is
`id`, a strict cursor with the single unmatched column `name`, zero rows
and no iteration error.  `scanAll` returns the missing-field error, while
the claim demands that every zero-row, error-free cursor leave a valid
slice destination with no error. -/
theorem scanAll_zero_rows_cex :
    (scanAll String.toLower ⟨Except.ok ["name"], [], none, false, none⟩
        (GoType.ptr (GoType.slice false itemType)) false [] false).err =
      some (ScanError.missingField "name") ∧
    (scanAll String.toLower ⟨Except.ok ["name"], [], none, false, none⟩
        (GoType.ptr (GoType.slice false itemType)) false [] false).err ≠
      none := by
  refine ⟨rfl, fun h => ?_⟩
  have h1 : (scanAll String.toLower
      ⟨Except.ok ["name"], [], none, false, none⟩
      (GoType.ptr (GoType.slice false itemType)) false [] false).err =
      some (ScanError.missingField "name") := rfl
  rw [h] at h1
  exact Option.noConfusion h1

/-- C7 (amended): a cursor that yields zero rows and reports no iteration
error leaves a valid slice destination unchanged and returns no error,
provided the pre-row validation passes: no struct-only violation, no
column-count rejection, and no strict missing-field failure. -/
theorem scanAll_zero_rows_empty :
    ∀ (gm : String → String) (elemTy : GoType) (cols : List String)
      (u : Bool) (rm : Option (String → String)) (init : List GoVal)
      (structOnly : Bool),
      (structOnly && isScannable gm (derefOnce elemTy)) = false →
      (isScannable gm (derefOnce elemTy) && decide (cols.length > 1)) =
        false →
      (isScannable gm (derefOnce elemTy) = false →
        ((missingFields (traversalsByName (rm.getD gm) (derefOnce elemTy)
            cols)).isSome && !u) = false) →
      scanAll gm ⟨Except.ok cols, [], none, u, rm⟩
          (GoType.ptr (GoType.slice false elemTy)) false init structOnly =
        ⟨none, init, [CursorOp.columns, CursorOp.next, CursorOp.err]⟩ := by
  intro gm elemTy cols u rm init so h1 h2 h3
  rw [scanAll_ptr_slice_ok]
  rw [if_neg (by simp [h1])]
  by_cases hs : isScannable gm (derefOnce elemTy) = true
  · rw [if_neg (by simp [h2]), if_neg (by simp [hs])]
    rfl
  · have hs' : isScannable gm (derefOnce elemTy) = false := by
      simpa using hs
    rw [if_neg (by simp [h2]), if_pos (by simp [hs']),
      if_neg (by simp [h3 hs'])]
    have hb := isScannable_false_struct gm (derefOnce elemTy) hs'
    have hloop := compositeLoop_ok (derefOnce elemTy)
      (elemTy.kind == Kind.kptr)
      (traversalsByName (rm.getD gm) (derefOnce elemTy) cols) hb
      [] init [CursorOp.columns]
    simp only [List.map_nil] at hloop
    rw [hloop]
    simp [finish, okTrace]

/-- C7 witness: an int slice destination and a one-column, zero-row
cursor: the destination stays as it was and there is no error. -/
theorem scanAll_zero_rows_empty_witness :
    scanAll String.toLower ⟨Except.ok ["a"], [], none, false, none⟩
        (GoType.ptr (GoType.slice false intType)) false [] false =
      ⟨none, [], [CursorOp.columns, CursorOp.next, CursorOp.err]⟩ :=
  scanAll_zero_rows_empty String.toLower intType ["a"] false none [] false
    (by decide) (by decide) (by decide)

/-- C1: for a composite (field-mapped) element type and a column list
containing a name with no matching field — that is, `missingFields`
reports an index `f` — a strict (not unsafe) cursor makes `scanAll`
return the missing-field error naming the offending column before any
`Next` or `Scan` call and before touching the destination, whatever the
rows are; a lenient (unsafe) cursor with the same column list succeeds,
appending one instance per row built by `scanRowVals`, where the value
at a column with an empty traversal (the discard slot) never influences
the instance, and the instance equals the one built from the matched
columns alone. -/
theorem scanAll_missing_column :
    ∀ (gm : String → String) (elemTy : GoType) (cols : List String)
      (rm : Option (String → String)) (init : List GoVal)
      (structOnly : Bool),
      isScannable gm (derefOnce elemTy) = false →
      (∀ (rows : List (Except String (List Val))) (fe : Option String)
        (f : Nat),
        missingFields (traversalsByName (rm.getD gm) (derefOnce elemTy)
          cols) = some f →
        scanAll gm ⟨Except.ok cols, rows, fe, false, rm⟩
            (GoType.ptr (GoType.slice false elemTy)) false init structOnly =
          ⟨some (ScanError.missingField (cols.getD f "")), init,
            [CursorOp.columns]⟩) ∧
      (∀ (rvs : List (List Val)),
        (scanAll gm ⟨Except.ok cols, rvs.map Except.ok, none, true, rm⟩
            (GoType.ptr (GoType.slice false elemTy)) false init
            structOnly).err = none ∧
        (scanAll gm ⟨Except.ok cols, rvs.map Except.ok, none, true, rm⟩
            (GoType.ptr (GoType.slice false elemTy)) false init
            structOnly).dest =
          init ++ rvs.map (fun vs =>
            pack (elemTy.kind == Kind.kptr)
              (scanRowVals (derefOnce elemTy)
                (traversalsByName (rm.getD gm) (derefOnce elemTy) cols)
                vs))) ∧
      (∀ (vs : List Val) (i : Nat) (w : Val),
        (traversalsByName (rm.getD gm) (derefOnce elemTy) cols).getD i [] =
          [] →
        scanRowVals (derefOnce elemTy)
            (traversalsByName (rm.getD gm) (derefOnce elemTy) cols)
            (vs.set i w) =
          scanRowVals (derefOnce elemTy)
            (traversalsByName (rm.getD gm) (derefOnce elemTy) cols) vs) ∧
      (∀ (vs : List Val),
        scanRowVals (derefOnce elemTy)
            (traversalsByName (rm.getD gm) (derefOnce elemTy) cols) vs =
          buildPairs (derefOnce elemTy)
            (((traversalsByName (rm.getD gm) (derefOnce elemTy) cols).zip
              vs).filter (fun pv => !pv.1.isEmpty))) := by
  intro gm elemTy cols rm init so hns
  have hb := isScannable_false_struct gm (derefOnce elemTy) hns
  refine ⟨?_, ?_, ?_, ?_⟩
  · intro rows fe f hm
    rw [scanAll_ptr_slice_ok]
    rw [if_neg (by simp [hns]), if_neg (by simp [hns]),
      if_pos (by simp [hns]), if_pos (by simp [hm])]
    simp [hm]
  · intro rvs
    rw [scanAll_ptr_slice_ok]
    rw [if_neg (by simp [hns]), if_neg (by simp [hns]),
      if_pos (by simp [hns]), if_neg (by simp)]
    rw [compositeLoop_ok (derefOnce elemTy) (elemTy.kind == Kind.kptr)
      (traversalsByName (rm.getD gm) (derefOnce elemTy) cols) hb rvs init
      [CursorOp.columns]]
    exact ⟨rfl, rfl⟩
  · intro vs i w hempty
    unfold scanRowVals
    rw [buildPairs_filter, buildPairs_filter (derefOnce elemTy)
      ((traversalsByName (rm.getD gm) (derefOnce elemTy) cols).zip vs)]
    rw [zip_set_unmatched _ vs i w hempty]
  · intro vs
    exact buildPairs_filter _ _

/-- C1 witness: element type with the single canonical name `id`; strict
cursor with columns `name, id` fails naming `name` after `Columns` only;
the lenient cursor with one row decodes the `name` value into the discard
slot and fills `ID` from the `id` column, and changing the discarded
value does not change the instance. -/
theorem scanAll_missing_column_witness :
    scanAll String.toLower ⟨Except.ok ["name", "id"],
        [Except.ok [10, 1]], none, false, none⟩
        (GoType.ptr (GoType.slice false itemType)) false [] false =
      ⟨some (ScanError.missingField "name"), [], [CursorOp.columns]⟩ ∧
    (scanAll String.toLower ⟨Except.ok ["name", "id"],
        [Except.ok [10, 1]], none, true, none⟩
        (GoType.ptr (GoType.slice false itemType)) false [] false).dest =
      [GoVal.strukt [GoVal.prim 1]] ∧
    scanRowVals itemType
        (traversalsByName String.toLower itemType ["name", "id"])
        ([10, 1].set 0 99) =
      scanRowVals itemType
        (traversalsByName String.toLower itemType ["name", "id"]) [10, 1] := by
  refine ⟨?_, ?_, ?_⟩
  · exact (scanAll_missing_column String.toLower itemType ["name", "id"]
      none [] false (by decide)).1 [Except.ok [10, 1]] none 0 (by decide)
  · have h := (((scanAll_missing_column String.toLower itemType
      ["name", "id"] none [] false (by decide)).2).1 [[10, 1]]).2
    exact h.trans (by rfl)
  · exact (((scanAll_missing_column String.toLower itemType ["name", "id"]
      none [] false (by decide)).2).2).1 [10, 1] 0 99 (by decide)

/-- C4: when the per-row decode of a row fails after some rows decoded
and appended successfully, `scanAll` returns that decode error verbatim,
processes no further rows (the result does not depend on anything after
the failing row), and the destination keeps exactly the rows already
appended — the same contents a run over just the successful prefix
leaves, one element per successful row. -/
theorem scanAll_decode_error_stops :
    ∀ (gm : String → String) (elemTy : GoType) (cols : List String)
      (u : Bool) (rm : Option (String → String)) (init : List GoVal)
      (structOnly : Bool) (okRvs : List (List Val)) (emsg : String)
      (rest : List (Except String (List Val))) (fe : Option String),
      (structOnly && isScannable gm (derefOnce elemTy)) = false →
      (isScannable gm (derefOnce elemTy) && decide (cols.length > 1)) =
        false →
      (isScannable gm (derefOnce elemTy) = false →
        ((missingFields (traversalsByName (rm.getD gm) (derefOnce elemTy)
          cols)).isSome && !u) = false) →
      (scanAll gm ⟨Except.ok cols,
          okRvs.map Except.ok ++ Except.error emsg :: rest, fe, u, rm⟩
          (GoType.ptr (GoType.slice false elemTy)) false init
          structOnly).err = some (ScanError.decodeErr emsg) ∧
      (scanAll gm ⟨Except.ok cols,
          okRvs.map Except.ok ++ Except.error emsg :: rest, fe, u, rm⟩
          (GoType.ptr (GoType.slice false elemTy)) false init
          structOnly).dest =
        (scanAll gm ⟨Except.ok cols, okRvs.map Except.ok, none, u, rm⟩
          (GoType.ptr (GoType.slice false elemTy)) false init
          structOnly).dest ∧
      (scanAll gm ⟨Except.ok cols, okRvs.map Except.ok, none, u, rm⟩
          (GoType.ptr (GoType.slice false elemTy)) false init
          structOnly).dest.length = init.length + okRvs.length := by
  intro gm elemTy cols u rm init so okRvs emsg rest fe h1 h2 h3
  have c1 : ¬((so && isScannable gm (derefOnce elemTy)) = true) := by
    simp [h1]
  have c2 : ¬((isScannable gm (derefOnce elemTy) &&
      decide (cols.length > 1)) = true) := by simp [h2]
  rw [scanAll_ptr_slice_ok, scanAll_ptr_slice_ok]
  by_cases hs : isScannable gm (derefOnce elemTy) = true
  · have c3 : ¬((!isScannable gm (derefOnce elemTy)) = true) := by
      simp [hs]
    simp only [if_neg c1, if_neg c2, if_neg c3]
    rw [scalarLoop_stop (derefOnce elemTy) (elemTy.kind == Kind.kptr) emsg
      rest okRvs init [CursorOp.columns],
      scalarLoop_ok (derefOnce elemTy) (elemTy.kind == Kind.kptr) okRvs
      init [CursorOp.columns]]
    refine ⟨rfl, rfl, ?_⟩
    show (init ++ okRvs.map _).length = init.length + okRvs.length
    simp
  · have hs' : isScannable gm (derefOnce elemTy) = false := by simpa using hs
    have hb := isScannable_false_struct gm (derefOnce elemTy) hs'
    have c3 : ((!isScannable gm (derefOnce elemTy)) = true) := by simp [hs']
    have c4 : ¬(((missingFields (traversalsByName (rm.getD gm)
        (derefOnce elemTy) cols)).isSome && !u) = true) := by
      simp [h3 hs']
    simp only [if_neg c1, if_neg c2, if_pos c3, if_neg c4]
    rw [compositeLoop_stop (derefOnce elemTy) (elemTy.kind == Kind.kptr)
      (traversalsByName (rm.getD gm) (derefOnce elemTy) cols) hb emsg rest
      okRvs init [CursorOp.columns],
      compositeLoop_ok (derefOnce elemTy) (elemTy.kind == Kind.kptr)
      (traversalsByName (rm.getD gm) (derefOnce elemTy) cols) hb okRvs init
      [CursorOp.columns]]
    refine ⟨rfl, rfl, ?_⟩
    show (init ++ okRvs.map _).length = init.length + okRvs.length
    simp

/-- C4 witness: an int slice destination, one good row 5, then a decode
failure `boom`, then a further row that is never reached: the error is
the decode error, and the destination keeps exactly the one decoded
row. -/
theorem scanAll_decode_error_stops_witness :
    (scanAll String.toLower ⟨Except.ok ["a"],
        [Except.ok [5], Except.error "boom", Except.ok [7]], none, false,
        none⟩
        (GoType.ptr (GoType.slice false intType)) false [] false).err =
      some (ScanError.decodeErr "boom") ∧
    (scanAll String.toLower ⟨Except.ok ["a"],
        [Except.ok [5], Except.error "boom", Except.ok [7]], none, false,
        none⟩
        (GoType.ptr (GoType.slice false intType)) false [] false).dest =
      (scanAll String.toLower ⟨Except.ok ["a"], [Except.ok [5]], none,
        false, none⟩
        (GoType.ptr (GoType.slice false intType)) false [] false).dest ∧
    (scanAll String.toLower ⟨Except.ok ["a"], [Except.ok [5]], none, false,
        none⟩
        (GoType.ptr (GoType.slice false intType)) false [] false).dest.length
      = 0 + 1 :=
  scanAll_decode_error_stops String.toLower intType ["a"] false none []
    false [[5]] "boom" [Except.ok [7]] none (by decide) (by decide)
    (fun h => absurd h (by decide))

/-- Reduction of `scanBody` when the column fetch fails. -/
theorem scanBody_colsErr (gm : String → String) (c : Cursor)
    (base : GoType) (byPtr : Bool) (init : List GoVal) (so : Bool)
    (msg : String) (hc : c.columnsRes = Except.error msg) :
    scanBody gm c base byPtr init so =
      (if so && isScannable gm base then
        ⟨some (structOnlyError base), init, []⟩
      else ⟨some (ScanError.cursorErr msg), init, [CursorOp.columns]⟩) := by
  unfold scanBody
  rw [hc]

/-- Reduction of `scanBody` when the column fetch succeeds. -/
theorem scanBody_colsOk (gm : String → String) (c : Cursor)
    (base : GoType) (byPtr : Bool) (init : List GoVal) (so : Bool)
    (cols : List String) (hc : c.columnsRes = Except.ok cols) :
    scanBody gm c base byPtr init so =
      (if so && isScannable gm base then
        ⟨some (structOnlyError base), init, []⟩
      else if isScannable gm base && decide (cols.length > 1) then
        ⟨some (ScanError.shapeMismatch base.kind cols.length), init,
          [CursorOp.columns]⟩
      else if !isScannable gm base then
        (if (missingFields (traversalsByName (c.rowsMapper.getD gm) base
              cols)).isSome && !c.unsafeMode then
          ⟨some (ScanError.missingField
              (cols.getD ((missingFields (traversalsByName
                (c.rowsMapper.getD gm) base cols)).getD 0) "")), init,
            [CursorOp.columns]⟩
        else
          finish c (compositeLoop base byPtr
            (traversalsByName (c.rowsMapper.getD gm) base cols) c.rows init
            [CursorOp.columns]))
      else
        finish c (scalarLoop base byPtr c.rows init [CursorOp.columns])) := by
  unfold scanBody
  rw [hc]

/-- The post-destination-check phase never produces an
InvalidDestination-kind error, and its StructOnlyViolation-kind error is
produced with an empty trace and untouched destination. -/
theorem scanBody_frame (gm : String → String) (c : Cursor) (base : GoType)
    (byPtr : Bool) (init : List GoVal) (so : Bool) (e : ScanError)
    (h : (scanBody gm c base byPtr init so).err = some e)
    (hk : e.toKind = ErrKind.invalidDestination ∨
      e.toKind = ErrKind.structOnlyViolation) :
    (scanBody gm c base byPtr init so).trace = [] ∧
    (scanBody gm c base byPtr init so).dest = init := by
  by_cases h1 : (so && isScannable gm base) = true
  · have hr : scanBody gm c base byPtr init so =
        ⟨some (structOnlyError base), init, []⟩ := by
      unfold scanBody
      rw [if_pos h1]
    rw [hr]
    exact ⟨rfl, rfl⟩
  · cases hcc : c.columnsRes with
    | error msg =>
        rw [scanBody_colsErr gm c base byPtr init so msg hcc,
          if_neg h1] at h
        have h2 : ScanError.cursorErr msg = e := Option.some.inj h
        rcases hk with hk | hk <;> rw [← h2] at hk <;>
          exact ErrKind.noConfusion hk
    | ok cols =>
        rw [scanBody_colsOk gm c base byPtr init so cols hcc,
          if_neg h1] at h
        by_cases h2 : (isScannable gm base && decide (cols.length > 1)) =
            true
        · rw [if_pos h2] at h
          have h3 : ScanError.shapeMismatch base.kind cols.length = e :=
            Option.some.inj h
          rcases hk with hk | hk <;> rw [← h3] at hk <;>
            exact ErrKind.noConfusion hk
        · rw [if_neg h2] at h
          by_cases h3 : (!isScannable gm base) = true
          · rw [if_pos h3] at h
            by_cases h4 : ((missingFields (traversalsByName
                (c.rowsMapper.getD gm) base cols)).isSome &&
                !c.unsafeMode) = true
            · rw [if_pos h4] at h
              have h5 := Option.some.inj h
              rcases hk with hk | hk <;> rw [← h5] at hk <;>
                exact ErrKind.noConfusion hk
            · rw [if_neg h4] at h
              rcases finish_err_kind _ _ _ h with hl | hcur
              · rcases compositeLoop_err_kind _ _ _ _ _ _ _ hl with hd | hd
                · rcases hk with hk | hk <;> rw [hd] at hk <;>
                    exact ErrKind.noConfusion hk
                · rcases hk with hk | hk <;> rw [hd] at hk <;>
                    exact ErrKind.noConfusion hk
              · rcases hk with hk | hk <;> rw [hcur] at hk <;>
                  exact ErrKind.noConfusion hk
          · rw [if_neg h3] at h
            rcases finish_err_kind _ _ _ h with hl | hcur
            · have hd := scalarLoop_err_kind _ _ _ _ _ _ hl
              rcases hk with hk | hk <;> rw [hd] at hk <;>
                exact ErrKind.noConfusion hk
            · rcases hk with hk | hk <;> rw [hcur] at hk <;>
                exact ErrKind.noConfusion hk

/-- C10: whenever `scanAll` returns an InvalidDestination-kind or
StructOnlyViolation-kind error, it has performed no operation on the
cursor (no Columns, Next, Scan or Err call) and the destination is left
unchanged. -/
theorem scanAll_early_error_frame :
    ∀ (gm : String → String) (c : Cursor) (destTy : GoType)
      (destNil : Bool) (init : List GoVal) (structOnly : Bool)
      (e : ScanError),
      (scanAll gm c destTy destNil init structOnly).err = some e →
      (e.toKind = ErrKind.invalidDestination ∨
        e.toKind = ErrKind.structOnlyViolation) →
      (scanAll gm c destTy destNil init structOnly).trace = [] ∧
      (scanAll gm c destTy destNil init structOnly).dest = init := by
  intro gm c destTy destNil init so e h hk
  unfold scanAll at h ⊢
  by_cases h1 : destTy.kind ≠ Kind.kptr
  · rw [if_pos h1] at h ⊢
    exact ⟨rfl, rfl⟩
  · rw [if_neg h1] at h ⊢
    by_cases h2 : destNil = true
    · rw [if_pos h2] at h ⊢
      exact ⟨rfl, rfl⟩
    · rw [if_neg h2] at h ⊢
      by_cases h3 : (derefOnce destTy).kind ≠ Kind.kslice
      · rw [if_pos h3] at h ⊢
        exact ⟨rfl, rfl⟩
      · rw [if_neg h3] at h ⊢
        exact scanBody_frame gm c _ _ init so e h hk

/-- C10 witness: a non-pointer destination yields the not-a-pointer
error with an empty cursor trace and an unchanged destination. -/
theorem scanAll_early_error_frame_witness :
    (scanAll String.toLower ⟨Except.ok ["a"], [], none, false, none⟩
        intType false [GoVal.prim 3] false).trace = [] ∧
    (scanAll String.toLower ⟨Except.ok ["a"], [], none, false, none⟩
        intType false [GoVal.prim 3] false).dest = [GoVal.prim 3] :=
  scanAll_early_error_frame String.toLower
    ⟨Except.ok ["a"], [], none, false, none⟩ intType false [GoVal.prim 3]
    false ScanError.notAPointer rfl (Or.inl rfl)

end Sqlx
